import Mathlib

/-!
# Verification of the nodejuploader chunk-upload backend

Shallow embedding of `src/back/app.js`: the chunk upload handler
(`GET /upload`), the status resolver (`GET /status`), the artifact
download (`GET /file/:fid`), the assembler (`assembleFile`) and the
hourly retention sweeper (the `cron.schedule` callback).

The filesystem under `UPLOAD_DIR` is modelled as three association
lists: per-transfer chunk directories (`<fid>/<index>.part` blobs,
keyed by the parsed integer index), assembled artifacts (`<fid>.bin`)
and the set of `<fid>.meta.json` marker files.  External collaborators
(Node's `parseInt`, `Buffer.from(d, 'base64url')` and
`crypto.createHash('sha256')`) are passed in as function parameters —
the handlers only ever feed them inputs and compare their outputs, so
their internals do not affect the control flow being verified.
-/

/-- Raw byte payloads (each entry one byte value). -/
abbrev Bytes := List Nat

/-- Association-list lookup keyed by decidable equality
(`fs.pathExists` / reading a directory entry by name). -/
def alookup {κ α : Type} [DecidableEq κ] (k : κ) : List (κ × α) → Option α
  | [] => none
  | p :: rest => if k = p.1 then some p.2 else alookup k rest

/-- Association-list update: overwrite the binding for `k`, or append a
fresh one. -/
def aset {κ α : Type} [DecidableEq κ] (k : κ) (v : α) : List (κ × α) → List (κ × α)
  | [] => [(k, v)]
  | p :: rest => if k = p.1 then (k, v) :: rest else p :: aset k v rest

/-- Association-list removal of every binding for `k` (`fs.remove`). -/
def aremove {κ α : Type} [DecidableEq κ] (k : κ) : List (κ × α) → List (κ × α)
  | [] => []
  | p :: rest => if k = p.1 then aremove k rest else p :: aremove k rest

/-- Contents of one transfer's chunk directory: the `<index>.part`
blobs, keyed by chunk index. -/
abbrev Dir := List (Int × Bytes)

/-- The storage volume under `UPLOAD_DIR`. -/
structure FS where
  /-- per-transfer chunk directories `UPLOAD_DIR/<fid>/` -/
  dirs : List (String × Dir)
  /-- assembled artifacts `UPLOAD_DIR/<fid>.bin` -/
  bins : List (String × Bytes)
  /-- marker files `UPLOAD_DIR/<fid>.meta.json` -/
  metas : List String
deriving DecidableEq

/-- The empty upload directory. -/
def FS.empty : FS := ⟨[], [], []⟩

/-- `await fs.ensureDir(fileDir)` — create the chunk directory if absent. -/
def FS.ensureDir (fs : FS) (fid : String) : FS :=
  match alookup fid fs.dirs with
  | some _ => fs
  | none => { fs with dirs := fs.dirs ++ [(fid, [])] }

/-- The chunk blob stored for `(fid, idx)`, if any. -/
def FS.chunkAt (fs : FS) (fid : String) (idx : Int) : Option Bytes :=
  (alookup fid fs.dirs).bind (alookup idx)

/-- Response of the `GET /upload` handler. -/
inductive UploadResult where
  /-- 400 `{ error: 'Missing parameters' }` -/
  | missingParams
  /-- 400 `{ error: 'Invalid numbers' }` -/
  | invalidNumbers
  /-- 202 `{ received: i, status: 'exists' }` -/
  | ackExists (received : Int)
  /-- 202 `{ received: i }` -/
  | ackNew (received : Int)
deriving DecidableEq

/-- Result of one `GET /upload` request: the filesystem afterwards, the
HTTP response, and whether `assembleFile` was kicked off. -/
structure UploadOutcome where
  fs : FS
  result : UploadResult
  assemblyTriggered : Bool
deriving DecidableEq

/-- The `GET /upload` handler (`app.js` lines 38–85).  `parse` models
`parseInt(·, 10)` (`none` = `NaN`); `decode` models
`Buffer.from(·, 'base64url')`.  Express delivers a missing query
parameter as `undefined` and an empty one as `""`; both are falsy, so
the model folds them into the empty string. -/
def uploadChunk (parse : String → Option Int) (decode : String → Bytes)
    (fs : FS) (fid i t h d : String) : UploadOutcome :=
  if fid = "" ∨ i = "" ∨ t = "" ∨ h = "" ∨ d = "" then
    ⟨fs, .missingParams, false⟩
  else
    match parse i, parse t with
    | some chunkIndex, some totalChunks =>
      let fs1 := fs.ensureDir fid
      let dir := (alookup fid fs1.dirs).getD []
      let buffer := decode d
      match alookup chunkIndex dir with
      | some _ =>
        -- `fs.writeFile(chunkPath, buffer, { flag: 'wx' })` raised EEXIST
        ⟨fs1, .ackExists chunkIndex, false⟩
      | none =>
        let dir2 := dir ++ [(chunkIndex, buffer)]
        let fs2 := { fs1 with dirs := aset fid dir2 fs1.dirs }
        -- `files.length === totalChunks` after re-reading the directory
        ⟨fs2, .ackNew chunkIndex, (dir2.length : Int) == totalChunks⟩
    | _, _ => ⟨fs, .invalidNumbers, false⟩

/-- Numeric ascending sort of the directory listing:
`files.sort((a, b) => parseInt(a) - parseInt(b))`. -/
def sortChunks (files : Dir) : Dir :=
  List.insertionSort (fun a b => a.1 ≤ b.1) files

/-- Bytes streamed into `fid.bin`: the chunk blobs concatenated in
numeric index order. -/
def assembledBytes (files : Dir) : Bytes :=
  ((sortChunks files).map Prod.snd).flatten

/-- Outcome of one `assembleFile` run. -/
inductive AssembleResult where
  /-- hashes matched; artifact and meta published, chunk dir removed -/
  | ready
  /-- hashes differed; artifact and chunk dir removed -/
  | digestMismatch
  /-- directory recount disagreed with `totalChunks`; nothing done -/
  | incomplete
  /-- `fs.readdir(fileDir)` failed (directory missing) -/
  | ioError
deriving DecidableEq

/-- `assembleFile(fid, totalChunks, expectedHash)` (`app.js` lines
130–173).  `sha256hex` models `crypto.createHash('sha256')` followed by
`digest('hex')`; feeding the accumulator each chunk in order equals
hashing the concatenation, so the model hashes `assembledBytes`. -/
def assembleFile (sha256hex : Bytes → String) (fs : FS)
    (fid : String) (totalChunks : Int) (expectedHash : String) :
    FS × AssembleResult :=
  match alookup fid fs.dirs with
  | none => (fs, .ioError)
  | some files =>
    if (files.length : Int) == totalChunks then
      let content := assembledBytes files
      let fs1 := { fs with bins := aset fid content fs.bins }
      let computedHash := sha256hex content
      if computedHash = expectedHash then
        let fs2 := { fs1 with metas :=
          if fid ∈ fs1.metas then fs1.metas else fs1.metas ++ [fid] }
        ({ fs2 with dirs := aremove fid fs2.dirs }, .ready)
      else
        let fs2 := { fs1 with bins := aremove fid fs1.bins }
        ({ fs2 with dirs := aremove fid fs2.dirs }, .digestMismatch)
    else (fs, .incomplete)

/-- Response of the `GET /status` endpoint. -/
inductive Status where
  /-- 400 `{ error: 'Missing fid' }` -/
  | missingFid
  /-- 200 `{ state: 'ready', downloadUrl }` -/
  | ready
  /-- 200 `{ state: 'uploading_or_assembling' }` -/
  | uploadingOrAssembling
  /-- 404 `{ state: 'not_found' }` -/
  | notFound
deriving DecidableEq

/-- The `GET /status` handler (`app.js` lines 91–110). -/
def getStatus (fs : FS) (fid : String) : Status :=
  if fid = "" then .missingFid
  else if (alookup fid fs.bins).isSome ∧ fid ∈ fs.metas then .ready
  else if (alookup fid fs.dirs).isSome then .uploadingOrAssembling
  else .notFound

/-- The `GET /file/:fid` handler (`app.js` lines 116–125): `none`
models the 410 "Gone or Not Found" response, `some` the download. -/
def readArtifact (fs : FS) (fid : String) : Option Bytes :=
  alookup fid fs.bins

/-! ## Retention sweeper (`app.js` lines 177–195) -/

/-- One top-level entry of `UPLOAD_DIR` as seen by the sweeper.
`ageMs` is `now - stat.mtimeMs`; `statFails` / `removeFails` mark the
filesystem calls that would reject (e.g. a permission error). -/
structure SweepEntry where
  name : String
  ageMs : Int
  statFails : Bool
  removeFails : Bool
deriving DecidableEq

/-- The 24-hour retention window, in milliseconds. -/
def retentionMs : Int := 24 * 60 * 60 * 1000

/-- The `cleanDir` closure: stat the entry and remove it when older
than the window; `.error` models a rejected promise. -/
def cleanDir (e : SweepEntry) : Except String Bool :=
  if e.statFails then .error e.name
  else if retentionMs < e.ageMs then
    if e.removeFails then .error e.name else .ok true
  else .ok false

/-- The sweep loop `for (const d of dirs) { await cleanDir(d); }`:
returns the names deleted in this run and, when a `cleanDir` rejection
escapes, the entry that raised it.  There is no per-entry catch, so a
rejection stops the loop. -/
def sweepRun : List SweepEntry → List String × Option String
  | [] => ([], none)
  | e :: es =>
    match cleanDir e with
    | .error n => ([], some n)
    | .ok deleted =>
      let rest := sweepRun es
      (if deleted then e.name :: rest.1 else rest.1, rest.2)

/-! ## Concrete stand-ins for the external collaborators

Used when a theorem or witness needs a fully concrete run: a decimal
parser in place of `parseInt`, the identity byte encoding in place of
base64url, and constant hash functions in place of SHA-256. -/

/-- Byte values of a string's characters (used as concrete payloads). -/
def strBytes (s : String) : Bytes := s.data.map Char.toNat

/-- Decimal parser supplied as the `parse` argument in concrete runs. -/
def parseDec (s : String) : Option Int :=
  if s.data ≠ [] ∧ s.data.all Char.isDigit then
    some (Int.ofNat (s.data.foldl (fun n c => 10 * n + (c.toNat - 48)) 0))
  else none

/-- Decoder supplied as the `decode` argument in concrete runs. -/
def decodeId (s : String) : Bytes := strBytes s

instance : IsTotal (Int × Bytes) (fun a b => a.1 ≤ b.1) :=
  ⟨fun a b => Int.le_total a.1 b.1⟩

instance : IsTrans (Int × Bytes) (fun a b => a.1 ≤ b.1) :=
  ⟨fun _ _ _ => Int.le_trans⟩

/-! ## Association-list lemmas -/

theorem alookup_append_of_none {κ α : Type} [DecidableEq κ] {k : κ}
    {l1 : List (κ × α)} (l2 : List (κ × α)) (h : alookup k l1 = none) :
    alookup k (l1 ++ l2) = alookup k l2 := by
  induction l1 with
  | nil => rfl
  | cons p rest ih =>
    by_cases hk : k = p.1
    · simp [alookup, hk] at h
    · simp only [alookup, hk, if_false, List.cons_append] at h ⊢
      exact ih h

theorem alookup_aset_self {κ α : Type} [DecidableEq κ] (k : κ) (v : α)
    (l : List (κ × α)) : alookup k (aset k v l) = some v := by
  induction l with
  | nil => simp [alookup, aset]
  | cons p rest ih =>
    by_cases hk : k = p.1 <;> simp [alookup, aset, hk, ih]

theorem alookup_aremove_self {κ α : Type} [DecidableEq κ] (k : κ)
    (l : List (κ × α)) : alookup k (aremove k l) = none := by
  induction l with
  | nil => rfl
  | cons p rest ih =>
    by_cases hk : k = p.1
    · subst hk; simp [aremove, ih]
    · simp [alookup, aremove, hk, ih]

theorem FS.ensureDir_bins (fs : FS) (fid : String) :
    (fs.ensureDir fid).bins = fs.bins := by
  unfold FS.ensureDir
  cases alookup fid fs.dirs <;> rfl

theorem FS.ensureDir_metas (fs : FS) (fid : String) :
    (fs.ensureDir fid).metas = fs.metas := by
  unfold FS.ensureDir
  cases alookup fid fs.dirs <;> rfl

theorem alookup_ensureDir_self (fs : FS) (fid : String) :
    alookup fid (fs.ensureDir fid).dirs = some ((alookup fid fs.dirs).getD []) := by
  unfold FS.ensureDir
  cases h : alookup fid fs.dirs with
  | some d => simp [h]
  | none => simp [alookup_append_of_none _ h, alookup]

/-! ## The upload handler: first-time and duplicate writes -/

/-- A first-time chunk write: acknowledged as new, the blob appended to
the (lazily created) chunk directory, artifacts and meta files
untouched, and assembly triggered exactly when the fresh directory
count equals the declared total. -/
theorem uploadChunk_new_spec (parse : String → Option Int)
    (decode : String → Bytes) (fs : FS) (fid i t h d : String)
    (idx tot : Int)
    (hfid : fid ≠ "") (hi : i ≠ "") (ht : t ≠ "") (hh : h ≠ "") (hd : d ≠ "")
    (hpi : parse i = some idx) (hpt : parse t = some tot)
    (hnew : fs.chunkAt fid idx = none) :
    uploadChunk parse decode fs fid i t h d =
      ⟨{ fs.ensureDir fid with
           dirs := aset fid (((alookup fid fs.dirs).getD []) ++ [(idx, decode d)])
                     (fs.ensureDir fid).dirs },
        .ackNew idx,
        (((((alookup fid fs.dirs).getD []) ++ [(idx, decode d)]).length : Int) == tot)⟩ := by
  have hdir : alookup idx ((alookup fid fs.dirs).getD []) = none := by
    unfold FS.chunkAt at hnew
    cases h0 : alookup fid fs.dirs with
    | none => rfl
    | some dir0 => rw [h0] at hnew; simpa using hnew
  unfold uploadChunk
  rw [if_neg (by simp [hfid, hi, ht, hh, hd]), hpi, hpt]
  simp only [alookup_ensureDir_self, Option.getD_some, hdir]

/-- A duplicate chunk write: the EEXIST branch answers
`{ received, status: 'exists' }`, leaves the filesystem exactly as it
was, and never reaches the completion check. -/
theorem uploadChunk_exists_spec (parse : String → Option Int)
    (decode : String → Bytes) (fs : FS) (fid i t h d : String)
    (idx tot : Int) (b : Bytes)
    (hfid : fid ≠ "") (hi : i ≠ "") (ht : t ≠ "") (hh : h ≠ "") (hd : d ≠ "")
    (hpi : parse i = some idx) (hpt : parse t = some tot)
    (hold : fs.chunkAt fid idx = some b) :
    uploadChunk parse decode fs fid i t h d = ⟨fs, .ackExists idx, false⟩ := by
  unfold FS.chunkAt at hold
  cases h0 : alookup fid fs.dirs with
  | none => rw [h0] at hold; simp at hold
  | some dir0 =>
    rw [h0] at hold
    simp only [Option.some_bind] at hold
    have hens : fs.ensureDir fid = fs := by unfold FS.ensureDir; rw [h0]
    unfold uploadChunk
    rw [if_neg (by simp [hfid, hi, ht, hh, hd]), hpi, hpt]
    simp only [hens, h0, Option.getD_some, hold]

/-! ## Claim C2 — the status decision -/

/-- C2 counterexample: a storage state where the artifact blob
`f.bin` exists but `f.meta.json` does not; `GET /status` answers
`not_found`, not `ready`, so the artifact alone is not the readiness
signal. -/
theorem claim_status_cx :
    (alookup "f" (FS.mk [] [("f", [72])] []).bins).isSome ∧
    getStatus (FS.mk [] [("f", [72])] []) "f" ≠ .ready ∧
    getStatus (FS.mk [] [("f", [72])] []) "f" = .notFound := by decide

/-- C2 amended: the resolver classifies by this decision order — Ready
iff both the artifact blob and its sibling meta file exist; otherwise
InProgress iff the chunk directory exists; otherwise NotFound.  The
meta file does participate: the artifact blob alone is not enough. -/
theorem claim_status_decision (fs : FS) (fid : String) (h : fid ≠ "") :
    (getStatus fs fid = .ready ↔
      ((alookup fid fs.bins).isSome ∧ fid ∈ fs.metas)) ∧
    (getStatus fs fid = .uploadingOrAssembling ↔
      (¬((alookup fid fs.bins).isSome ∧ fid ∈ fs.metas) ∧
        (alookup fid fs.dirs).isSome)) ∧
    (getStatus fs fid = .notFound ↔
      (¬((alookup fid fs.bins).isSome ∧ fid ∈ fs.metas) ∧
        ¬(alookup fid fs.dirs).isSome)) := by
  unfold getStatus
  rw [if_neg h]
  by_cases h1 : (alookup fid fs.bins).isSome ∧ fid ∈ fs.metas
  · simp [h1]
  · by_cases h2 : (alookup fid fs.dirs).isSome <;> simp [h1, h2]

theorem claim_status_decision_witness :
    getStatus (FS.mk [] [("f", [72])] ["f"]) "f" = .ready ↔
      ((alookup "f" (FS.mk [] [("f", [72])] ["f"]).bins).isSome ∧
        "f" ∈ (FS.mk [] [("f", [72])] ["f"]).metas) :=
  (claim_status_decision (FS.mk [] [("f", [72])] ["f"]) "f" (by decide)).1

/-! ## Claim C3 — digest comparison -/

/-- C3 counterexample: an expected digest differing from the recomputed
one only in letter case ("AB" vs "ab") is treated as a mismatch — the
artifact is discarded, not published. -/
theorem claim_digest_case_cx :
    "AB".data.map Char.toLower = "ab".data ∧
    (assembleFile (fun _ => "ab") ⟨[("f", [(0, [1, 2, 3])])], [], []⟩
        "f" 1 "AB").2 = .digestMismatch ∧
    alookup "f" (assembleFile (fun _ => "ab") ⟨[("f", [(0, [1, 2, 3])])], [], []⟩
        "f" 1 "AB").1.bins = none := by decide

/-- C3 amended: the final comparison is exact (case-sensitive) string
equality — once the recount passes, assembly publishes the artifact iff
the recomputed hex digest equals `expectedHash` verbatim. -/
theorem claim_digest_exact_compare (hf : Bytes → String) (fs : FS)
    (fid : String) (t : Int) (ex : String) (files : Dir)
    (hdir : alookup fid fs.dirs = some files)
    (hcount : (files.length : Int) = t) :
    ((assembleFile hf fs fid t ex).2 = .ready ↔
      hf (assembledBytes files) = ex) := by
  unfold assembleFile
  rw [hdir]
  simp only [hcount, beq_self_eq_true, if_true]
  by_cases hm : hf (assembledBytes files) = ex <;> simp [hm]

theorem claim_digest_exact_compare_witness :
    ((assembleFile (fun _ => "ab") ⟨[("f", [(0, [1, 2, 3])])], [], []⟩
        "f" 1 "ab").2 = .ready ↔
      (fun _ : Bytes => "ab") (assembledBytes [(0, [1, 2, 3])]) = "ab") :=
  claim_digest_exact_compare (fun _ => "ab") ⟨[("f", [(0, [1, 2, 3])])], [], []⟩
    "f" 1 "ab" [(0, [1, 2, 3])] (by decide) (by decide)

/-! ## Claim C5 — digest mismatch cleans up fully -/

/-- C5: after the mismatch branch of `assembleFile` completes, neither
the artifact blob nor the chunk directory exists, and `GET /status`
answers `not_found` for that transfer. -/
theorem claim_mismatch_cleanup (hf : Bytes → String) (fs : FS)
    (fid : String) (t : Int) (ex : String) (fs2 : FS)
    (hfid : fid ≠ "")
    (hrun : assembleFile hf fs fid t ex = (fs2, .digestMismatch)) :
    alookup fid fs2.bins = none ∧ alookup fid fs2.dirs = none ∧
    getStatus fs2 fid = .notFound := by
  cases hdir : alookup fid fs.dirs with
  | none =>
    have hv : assembleFile hf fs fid t ex = (fs, .ioError) := by
      unfold assembleFile; rw [hdir]
    rw [hv] at hrun
    simp at hrun
  | some files =>
    cases hc : (((files.length : Int)) == t) with
    | false =>
      have hv : assembleFile hf fs fid t ex = (fs, .incomplete) := by
        unfold assembleFile; rw [hdir]; simp [hc]
      rw [hv] at hrun
      simp at hrun
    | true =>
      by_cases hm : hf (assembledBytes files) = ex
      · have hv : (assembleFile hf fs fid t ex).2 = .ready := by
          unfold assembleFile; rw [hdir]; simp [hc, hm]
        rw [hrun] at hv
        simp at hv
      · have hv : assembleFile hf fs fid t ex =
            (⟨aremove fid fs.dirs,
              aremove fid (aset fid (assembledBytes files) fs.bins),
              fs.metas⟩, .digestMismatch) := by
          unfold assembleFile; rw [hdir]; simp [hc, hm]
        rw [hv] at hrun
        have hfs : fs2 = ⟨aremove fid fs.dirs,
            aremove fid (aset fid (assembledBytes files) fs.bins), fs.metas⟩ :=
          (congrArg Prod.fst hrun).symm
        subst hfs
        refine ⟨alookup_aremove_self fid _, alookup_aremove_self fid _, ?_⟩
        unfold getStatus
        rw [if_neg hfid]
        simp [alookup_aremove_self]

theorem claim_mismatch_cleanup_witness :
    alookup "f" (FS.mk [] [] []).bins = none ∧
    alookup "f" (FS.mk [] [] []).dirs = none ∧
    getStatus (FS.mk [] [] []) "f" = .notFound :=
  claim_mismatch_cleanup (fun _ => "ab") ⟨[("f", [(0, [1])])], [], []⟩
    "f" 1 "zz" ⟨[], [], []⟩ (by decide) (by decide)

/-! ## Claim C6 — zero-byte payloads -/

/-- C6 counterexample: an empty encoded data parameter is rejected by
the falsy-parameter guard as "Missing parameters" — a client input
error with no storage side effect — not accepted as a zero-length
chunk. -/
theorem claim_empty_payload_cx :
    uploadChunk parseDec decodeId FS.empty "f" "0" "1" "abcd" "" =
      ⟨FS.empty, .missingParams, false⟩ := by decide

/-- C6 amended: an empty `d` parameter (the encoding of a zero-byte
payload) is rejected as "Missing parameters" with no storage side
effect; a zero-length blob is only stored when a non-empty encoded
parameter decodes to zero bytes. -/
theorem claim_empty_payload_rejected (parse : String → Option Int)
    (decode : String → Bytes) (fs : FS) (fid i t h d : String)
    (idx tot : Int) :
    (uploadChunk parse decode fs fid i t h "" = ⟨fs, .missingParams, false⟩) ∧
    (fid ≠ "" → i ≠ "" → t ≠ "" → h ≠ "" → d ≠ "" →
      parse i = some idx → parse t = some tot → decode d = [] →
      fs.chunkAt fid idx = none →
      (uploadChunk parse decode fs fid i t h d).result = .ackNew idx ∧
      (uploadChunk parse decode fs fid i t h d).fs.chunkAt fid idx = some []) := by
  constructor
  · unfold uploadChunk
    rw [if_pos (by simp)]
  · intro hfid hi ht hh hd hpi hpt hdec hnew
    rw [uploadChunk_new_spec parse decode fs fid i t h d idx tot
      hfid hi ht hh hd hpi hpt hnew]
    refine ⟨rfl, ?_⟩
    unfold FS.chunkAt
    simp only [alookup_aset_self, Option.some_bind]
    rw [hdec]
    have hnone : alookup idx ((alookup fid fs.dirs).getD []) = none := by
      unfold FS.chunkAt at hnew
      cases h0 : alookup fid fs.dirs with
      | none => rfl
      | some dir0 => rw [h0] at hnew; simpa using hnew
    rw [alookup_append_of_none _ hnone]
    simp [alookup]

theorem claim_empty_payload_rejected_witness :
    (uploadChunk parseDec (fun _ => []) FS.empty "f" "0" "1" "zz" "A").result
      = .ackNew 0 ∧
    (uploadChunk parseDec (fun _ => []) FS.empty "f" "0" "1" "zz" "A").fs.chunkAt
      "f" 0 = some [] :=
  (claim_empty_payload_rejected parseDec (fun _ => []) FS.empty "f" "0" "1" "zz" "A"
      0 1).2 (by decide) (by decide) (by decide) (by decide) (by decide)
    (by decide) (by decide) rfl (by decide)

/-! ## Claim C8 — download is decided by the artifact blob alone -/

/-- C8: `GET /file/:fid` serves the artifact whenever `<fid>.bin`
exists; when the sibling meta file is absent and the chunk directory is
gone, the same transfer simultaneously resolves to `not_found` on
`GET /status`. -/
theorem claim_download_without_status (fs : FS) (fid : String) (b : Bytes)
    (hfid : fid ≠ "") (hbin : alookup fid fs.bins = some b) :
    readArtifact fs fid = some b ∧
    (fid ∉ fs.metas → alookup fid fs.dirs = none →
      getStatus fs fid = .notFound) := by
  refine ⟨hbin, fun hm hd => ?_⟩
  unfold getStatus
  rw [if_neg hfid]
  simp [hm, hd]

theorem claim_download_without_status_witness :
    readArtifact ⟨[], [("f", [7])], []⟩ "f" = some [7] ∧
    getStatus ⟨[], [("f", [7])], []⟩ "f" = .notFound :=
  ⟨(claim_download_without_status ⟨[], [("f", [7])], []⟩ "f" [7]
      (by decide) (by decide)).1,
   (claim_download_without_status ⟨[], [("f", [7])], []⟩ "f" [7]
      (by decide) (by decide)).2 (by decide) (by decide)⟩

/-! ## Claims C4 and C10 — idempotent chunk writes -/

/-- If no blob is stored for `(fid, idx)`, then the directory view the
handler obtains after `ensureDir` has no entry for `idx` either. -/
theorem chunkAt_none_dirview (fs : FS) (fid : String) (idx : Int)
    (hnew : fs.chunkAt fid idx = none) :
    alookup idx ((alookup fid fs.dirs).getD []) = none := by
  unfold FS.chunkAt at hnew
  cases h0 : alookup fid fs.dirs with
  | none => rfl
  | some dir0 => rw [h0] at hnew; simpa using hnew

/-- After a first-time write, the blob for `(fid, idx)` holds exactly
the decoded payload. -/
theorem uploadChunk_new_chunkAt (parse : String → Option Int)
    (decode : String → Bytes) (fs : FS) (fid i t h d : String)
    (idx tot : Int)
    (hfid : fid ≠ "") (hi : i ≠ "") (ht : t ≠ "") (hh : h ≠ "") (hd : d ≠ "")
    (hpi : parse i = some idx) (hpt : parse t = some tot)
    (hnew : fs.chunkAt fid idx = none) :
    (uploadChunk parse decode fs fid i t h d).fs.chunkAt fid idx
      = some (decode d) := by
  rw [uploadChunk_new_spec parse decode fs fid i t h d idx tot
    hfid hi ht hh hd hpi hpt hnew]
  unfold FS.chunkAt
  simp only [alookup_aset_self, Option.some_bind]
  rw [alookup_append_of_none _ (chunkAt_none_dirview fs fid idx hnew)]
  simp [alookup]

/-- C4: chunk writes are idempotent with first-writer-wins semantics —
a first submission for `(fid, idx)` is acknowledged as newly received
and stores the decoded payload; a second submission for the same pair,
with an arbitrary second payload, is acknowledged distinctly as
already-existing and leaves all stored state (in particular the stored
blob) exactly as the first write left it. -/
theorem claim_first_writer_wins (parse : String → Option Int)
    (decode : String → Bytes) (fs : FS)
    (fid i t h d i2 t2 h2 d2 : String) (idx tot tot2 : Int)
    (hfid : fid ≠ "") (hi : i ≠ "") (ht : t ≠ "") (hh : h ≠ "") (hd : d ≠ "")
    (hi2 : i2 ≠ "") (ht2 : t2 ≠ "") (hh2 : h2 ≠ "") (hd2 : d2 ≠ "")
    (hpi : parse i = some idx) (hpt : parse t = some tot)
    (hpi2 : parse i2 = some idx) (hpt2 : parse t2 = some tot2)
    (hnew : fs.chunkAt fid idx = none) :
    (uploadChunk parse decode fs fid i t h d).result = .ackNew idx ∧
    (uploadChunk parse decode fs fid i t h d).fs.chunkAt fid idx
      = some (decode d) ∧
    uploadChunk parse decode (uploadChunk parse decode fs fid i t h d).fs
        fid i2 t2 h2 d2 =
      ⟨(uploadChunk parse decode fs fid i t h d).fs, .ackExists idx, false⟩ := by
  have hres : (uploadChunk parse decode fs fid i t h d).result = .ackNew idx := by
    rw [uploadChunk_new_spec parse decode fs fid i t h d idx tot
      hfid hi ht hh hd hpi hpt hnew]
  have hat := uploadChunk_new_chunkAt parse decode fs fid i t h d idx tot
    hfid hi ht hh hd hpi hpt hnew
  exact ⟨hres, hat,
    uploadChunk_exists_spec parse decode _ fid i2 t2 h2 d2 idx tot2 (decode d)
      hfid hi2 ht2 hh2 hd2 hpi2 hpt2 hat⟩

theorem claim_first_writer_wins_witness :
    (uploadChunk parseDec decodeId FS.empty "f" "0" "2" "zz" "AA").result
      = .ackNew 0 ∧
    (uploadChunk parseDec decodeId FS.empty "f" "0" "2" "zz" "AA").fs.chunkAt
      "f" 0 = some (decodeId "AA") ∧
    uploadChunk parseDec decodeId
        (uploadChunk parseDec decodeId FS.empty "f" "0" "2" "zz" "AA").fs
        "f" "0" "2" "zz" "BB" =
      ⟨(uploadChunk parseDec decodeId FS.empty "f" "0" "2" "zz" "AA").fs,
        .ackExists 0, false⟩ :=
  claim_first_writer_wins parseDec decodeId FS.empty "f" "0" "2" "zz" "AA"
    "0" "2" "zz" "BB" 0 2 2 (by decide) (by decide) (by decide) (by decide)
    (by decide) (by decide) (by decide) (by decide) (by decide) (by decide)
    (by decide) (by decide) (by decide) (by decide)

/-- C10: a duplicate submission for an already-stored `(fid, idx)` is
answered from the EEXIST branch alone — the handler neither re-reads
the directory for the completion count nor starts `assembleFile`
(`assemblyTriggered = false`), and the filesystem is returned exactly
unchanged. -/
theorem claim_duplicate_no_assembly (parse : String → Option Int)
    (decode : String → Bytes) (fs : FS) (fid i t h d : String)
    (idx tot : Int) (b : Bytes)
    (hfid : fid ≠ "") (hi : i ≠ "") (ht : t ≠ "") (hh : h ≠ "") (hd : d ≠ "")
    (hpi : parse i = some idx) (hpt : parse t = some tot)
    (hold : fs.chunkAt fid idx = some b) :
    uploadChunk parse decode fs fid i t h d = ⟨fs, .ackExists idx, false⟩ :=
  uploadChunk_exists_spec parse decode fs fid i t h d idx tot b
    hfid hi ht hh hd hpi hpt hold

theorem claim_duplicate_no_assembly_witness :
    uploadChunk parseDec decodeId ⟨[("f", [(1, [9])])], [], []⟩
        "f" "1" "1" "zz" "CC" =
      ⟨⟨[("f", [(1, [9])])], [], []⟩, .ackExists 1, false⟩ :=
  claim_duplicate_no_assembly parseDec decodeId ⟨[("f", [(1, [9])])], [], []⟩
    "f" "1" "1" "zz" "CC" 1 1 [9] (by decide) (by decide) (by decide)
    (by decide) (by decide) (by decide) (by decide) (by decide)

/-! ## Claim C7 — the retention sweep is not fault-isolated -/

/-- C7 counterexample: the sweep visits a failing entry "a" first; the
healthy, expired entry "b" behind it is never examined or deleted in
that run, and the failure escapes the loop instead of being handled per
entry. -/
theorem claim_sweep_cx :
    retentionMs < retentionMs + 1 ∧
    sweepRun [⟨"a", retentionMs + 1, true, false⟩,
              ⟨"b", retentionMs + 1, false, false⟩] = ([], some "a") := by
  decide

/-- C7 amended: one failing entry aborts the rest of the sweep run —
every healthy entry before it is still examined (and deleted when past
the retention window), but the failing entry and every entry after it
are skipped, and the rejection escapes the loop. -/
theorem claim_sweep_abort (pre : List SweepEntry) (e : SweepEntry)
    (post : List SweepEntry)
    (hpre : ∀ x ∈ pre, x.statFails = false ∧ x.removeFails = false)
    (he : e.statFails = true ∨ (retentionMs < e.ageMs ∧ e.removeFails = true)) :
    sweepRun (pre ++ e :: post) =
      ((pre.filter (fun x => decide (retentionMs < x.ageMs))).map SweepEntry.name,
        some e.name) := by
  have hclean : cleanDir e = .error e.name := by
    rcases he with h1 | ⟨h2, h3⟩
    · simp [cleanDir, h1]
    · by_cases hs : e.statFails
      · simp [cleanDir, hs]
      · simp [cleanDir, hs, h2, h3]
  induction pre with
  | nil => simp [sweepRun, hclean]
  | cons x rest ih =>
    obtain ⟨hs, hr⟩ := hpre x (List.mem_cons_self x rest)
    have ihx := ih (fun y hy => hpre y (List.mem_cons_of_mem x hy))
    by_cases hx : retentionMs < x.ageMs
    · have hcx : cleanDir x = .ok true := by simp [cleanDir, hs, hr, hx]
      simp [sweepRun, hcx, ihx, List.filter_cons, hx]
    · have hcx : cleanDir x = .ok false := by simp [cleanDir, hs, hx]
      simp [sweepRun, hcx, ihx, List.filter_cons, hx]

theorem claim_sweep_abort_witness :
    sweepRun [⟨"old", retentionMs + 5, false, false⟩,
              ⟨"bad", retentionMs + 5, true, false⟩,
              ⟨"tail", retentionMs + 5, false, false⟩]
      = (["old"], some "bad") :=
  (claim_sweep_abort [⟨"old", retentionMs + 5, false, false⟩]
    ⟨"bad", retentionMs + 5, true, false⟩
    [⟨"tail", retentionMs + 5, false, false⟩]
    (by decide) (by decide)).trans (by decide)

/-! ## Claim C9 — completion is a bare file count -/

/-- C9: chunks stored at indices 5 and 0 under a declared total of 2 —
index 5 lies outside `[0, totalExpected)` — still count as a complete
transfer: the second write triggers assembly, the recount passes, and
the artifact concatenates whatever indices are present in ascending
numeric order (index 0 before index 5, although index 5 arrived
first). -/
theorem claim_count_only_completion :
    (uploadChunk parseDec decodeId
      (uploadChunk parseDec decodeId FS.empty "f" "5" "2" "zz" "BB").fs
      "f" "0" "2" "zz" "AA").assemblyTriggered = true ∧
    assembleFile (fun _ => "zz")
      (uploadChunk parseDec decodeId
        (uploadChunk parseDec decodeId FS.empty "f" "5" "2" "zz" "BB").fs
        "f" "0" "2" "zz" "AA").fs "f" 2 "zz" =
      (⟨[], [("f", strBytes "AABB")], ["f"]⟩, .ready) := by decide

/-! ## Claim C1 — assembly concatenates in ascending index order -/

/-- C1: (general part) whenever `assembleFile` succeeds, the published
artifact is the concatenation of the stored chunk payloads reordered by
strictly ascending numeric index — for any arrival order of the
directory listing; (concrete part) submitting "Hello ", "World", "!"
with declared total 3 in index order 1, 0, 2, with the declared digest
computed over "Hello World!", yields an artifact with exactly the bytes
"Hello World!" and a transfer whose status resolves to Ready. -/
theorem claim_assembly_index_order :
    (∀ (hf : Bytes → String) (fs : FS) (fid : String) (t : Int) (ex : String)
        (fs2 : FS) (files : Dir),
        alookup fid fs.dirs = some files →
        (files.map Prod.fst).Nodup →
        assembleFile hf fs fid t ex = (fs2, .ready) →
        ∃ ord : Dir,
          files.Perm ord ∧
          ord.Pairwise (fun a b => a.1 < b.1) ∧
          alookup fid fs2.bins = some ((ord.map Prod.snd).flatten)) ∧
    (∀ (parse : String → Option Int) (decode : String → Bytes)
        (hf : Bytes → String) (dH dW dX : String),
        parse "0" = some 0 → parse "1" = some 1 → parse "2" = some 2 →
        parse "3" = some 3 →
        decode dH = strBytes "Hello " → decode dW = strBytes "World" →
        decode dX = strBytes "!" →
        dH ≠ "" → dW ≠ "" → dX ≠ "" →
        hf (strBytes "Hello World!") ≠ "" →
        (uploadChunk parse decode
          (uploadChunk parse decode
            (uploadChunk parse decode FS.empty
              "f" "1" "3" (hf (strBytes "Hello World!")) dW).fs
            "f" "0" "3" (hf (strBytes "Hello World!")) dH).fs
          "f" "2" "3" (hf (strBytes "Hello World!")) dX).assemblyTriggered
            = true ∧
        assembleFile hf
          (uploadChunk parse decode
            (uploadChunk parse decode
              (uploadChunk parse decode FS.empty
                "f" "1" "3" (hf (strBytes "Hello World!")) dW).fs
              "f" "0" "3" (hf (strBytes "Hello World!")) dH).fs
            "f" "2" "3" (hf (strBytes "Hello World!")) dX).fs
          "f" 3 (hf (strBytes "Hello World!")) =
          (⟨[], [("f", strBytes "Hello World!")], ["f"]⟩, .ready) ∧
        getStatus (⟨[], [("f", strBytes "Hello World!")], ["f"]⟩ : FS) "f"
          = .ready) := by
  constructor
  · intro hf fs fid t ex fs2 files hdir hnodup hrun
    cases hc : (((files.length : Int)) == t) with
    | false =>
      have hv : assembleFile hf fs fid t ex = (fs, .incomplete) := by
        unfold assembleFile; rw [hdir]; simp [hc]
      rw [hv] at hrun
      simp at hrun
    | true =>
      by_cases hm : hf (assembledBytes files) = ex
      · have hv : assembleFile hf fs fid t ex =
            (⟨aremove fid fs.dirs, aset fid (assembledBytes files) fs.bins,
              if fid ∈ fs.metas then fs.metas else fs.metas ++ [fid]⟩,
              .ready) := by
          unfold assembleFile; rw [hdir]; simp [hc, hm]
        rw [hv] at hrun
        have hfs : fs2 = ⟨aremove fid fs.dirs,
            aset fid (assembledBytes files) fs.bins,
            if fid ∈ fs.metas then fs.metas else fs.metas ++ [fid]⟩ :=
          (congrArg Prod.fst hrun).symm
        subst hfs
        refine ⟨sortChunks files, (List.perm_insertionSort _ files).symm, ?_, ?_⟩
        · have hs : (sortChunks files).Pairwise (fun a b => a.1 ≤ b.1) :=
            List.sorted_insertionSort (fun (a b : Int × Bytes) => a.1 ≤ b.1) files
          have hp : (sortChunks files).Perm files :=
            List.perm_insertionSort _ files
          have hn2 : ((sortChunks files).map Prod.fst).Nodup :=
            ((hp.map Prod.fst).symm).nodup hnodup
          have hne := List.pairwise_map.mp hn2
          exact (List.Pairwise.and hs hne).imp (fun hab => lt_of_le_of_ne hab.1 hab.2)
        · rw [show (⟨aremove fid fs.dirs,
              aset fid (assembledBytes files) fs.bins,
              if fid ∈ fs.metas then fs.metas else fs.metas ++ [fid]⟩ : FS).bins
              = aset fid (assembledBytes files) fs.bins from rfl,
            alookup_aset_self]
          rfl
      · have hv : (assembleFile hf fs fid t ex).2 = .digestMismatch := by
          unfold assembleFile; rw [hdir]; simp [hc, hm]
        rw [hrun] at hv
        simp at hv
  · intro parse decode hf dH dW dX hp0 hp1 hp2 hp3 hH hW hX hdH hdW hdX hhx
    have e1 : uploadChunk parse decode FS.empty "f" "1" "3"
        (hf (strBytes "Hello World!")) dW =
        ⟨⟨[("f", [(1, strBytes "World")])], [], []⟩, .ackNew 1, false⟩ := by
      rw [uploadChunk_new_spec parse decode FS.empty "f" "1" "3" _ dW 1 3
        (by decide) (by decide) (by decide) hhx hdW hp1 hp3 (by decide)]
      simp only [hW]
      decide
    have e2 : uploadChunk parse decode
        ⟨[("f", [(1, strBytes "World")])], [], []⟩ "f" "0" "3"
        (hf (strBytes "Hello World!")) dH =
        ⟨⟨[("f", [(1, strBytes "World"), (0, strBytes "Hello ")])], [], []⟩,
          .ackNew 0, false⟩ := by
      rw [uploadChunk_new_spec parse decode
        ⟨[("f", [(1, strBytes "World")])], [], []⟩ "f" "0" "3" _ dH 0 3
        (by decide) (by decide) (by decide) hhx hdH hp0 hp3 (by decide)]
      simp only [hH]
      decide
    have e3 : uploadChunk parse decode
        ⟨[("f", [(1, strBytes "World"), (0, strBytes "Hello ")])], [], []⟩
        "f" "2" "3" (hf (strBytes "Hello World!")) dX =
        ⟨⟨[("f", [(1, strBytes "World"), (0, strBytes "Hello "),
            (2, strBytes "!")])], [], []⟩, .ackNew 2, true⟩ := by
      rw [uploadChunk_new_spec parse decode
        ⟨[("f", [(1, strBytes "World"), (0, strBytes "Hello ")])], [], []⟩
        "f" "2" "3" _ dX 2 3
        (by decide) (by decide) (by decide) hhx hdX hp2 hp3 (by decide)]
      simp only [hX]
      decide
    have hcontent : assembledBytes
        [(1, strBytes "World"), (0, strBytes "Hello "), (2, strBytes "!")]
        = strBytes "Hello World!" := by decide
    have e4 : assembleFile hf
        ⟨[("f", [(1, strBytes "World"), (0, strBytes "Hello "),
            (2, strBytes "!")])], [], []⟩ "f" 3
        (hf (strBytes "Hello World!")) =
        (⟨[], [("f", strBytes "Hello World!")], ["f"]⟩, .ready) := by
      unfold assembleFile
      simp [alookup, aset, aremove, hcontent]
    refine ⟨?_, ?_, by decide⟩
    · simp only [e1, e2, e3]
    · simp only [e1, e2, e3]
      exact e4

theorem claim_assembly_index_order_witness :
    (∃ ord : Dir,
      ([(1, strBytes "World"), (0, strBytes "Hello "), (2, strBytes "!")] : Dir).Perm
        ord ∧
      ord.Pairwise (fun a b => a.1 < b.1) ∧
      alookup "f" (FS.mk [] [("f", strBytes "Hello World!")] ["f"]).bins
        = some ((ord.map Prod.snd).flatten)) ∧
    ((uploadChunk parseDec decodeId
        (uploadChunk parseDec decodeId
          (uploadChunk parseDec decodeId FS.empty
            "f" "1" "3" "aa" "World").fs
          "f" "0" "3" "aa" "Hello ").fs
        "f" "2" "3" "aa" "!").assemblyTriggered = true ∧
      assembleFile (fun _ => "aa")
        (uploadChunk parseDec decodeId
          (uploadChunk parseDec decodeId
            (uploadChunk parseDec decodeId FS.empty
              "f" "1" "3" "aa" "World").fs
            "f" "0" "3" "aa" "Hello ").fs
          "f" "2" "3" "aa" "!").fs
        "f" 3 "aa" =
        (⟨[], [("f", strBytes "Hello World!")], ["f"]⟩, .ready) ∧
      getStatus (⟨[], [("f", strBytes "Hello World!")], ["f"]⟩ : FS) "f"
        = .ready) :=
  ⟨claim_assembly_index_order.1 (fun _ => "aa")
      ⟨[("f", [(1, strBytes "World"), (0, strBytes "Hello "),
        (2, strBytes "!")])], [], []⟩ "f" 3 "aa"
      ⟨[], [("f", strBytes "Hello World!")], ["f"]⟩
      [(1, strBytes "World"), (0, strBytes "Hello "), (2, strBytes "!")]
      (by decide) (by decide) (by decide),
   claim_assembly_index_order.2 parseDec decodeId (fun _ => "aa")
      "Hello " "World" "!" (by decide) (by decide) (by decide) (by decide)
      rfl rfl rfl (by decide) (by decide) (by decide) (by decide)⟩
